import Mathlib

/-!
Shallow embedding of the download-and-process pipeline in
`src/utils_internet.py` (classes `RateLimiter` and `EfficientDownloader`),
together with theorems settling the frozen claims about it.

Strings are modelled as `List Char`, byte payloads as `List Nat`, wall-clock
times as `ℚ`.  HTTP attempts are driven by an oracle `Nat → AttemptOutcome`
giving, for each attempt index, either a response (status and body) or a
raised exception, which is exactly the interface the code observes through
`aiohttp`.
-/

namespace UtilsInternet

/-! ## Filename derivation (`EfficientDownloader._get_filename` and the
common-prefix computation in `__init__`, lines 99-101 and 217-226) -/

/-- Longest common prefix of two character lists; `os.path.commonprefix`
on a list of strings is the fold of this binary operation (Python computes
it as the character-wise comparison of the lexicographic min and max, which
yields the same function). -/
def lcp2 : List Char → List Char → List Char
  | a :: as, b :: bs => if a = b then a :: lcp2 as bs else []
  | _, _ => []

/-- Embedding of `os.path.commonprefix(self.urls)`: `""` on the empty list,
otherwise the longest common prefix of all entries. -/
def commonPref : List (List Char) → List Char
  | [] => []
  | u :: us => us.foldl lcp2 u

/-- Embedding of `s.rsplit("/", 1)[0] + "/"`: everything up to and including
the last `'/'` when one occurs, otherwise the whole string followed by
`"/"`. -/
def upToLastSlash (s : List Char) : List Char :=
  if '/' ∈ s then (s.reverse.dropWhile (fun c => ¬ c = '/')).reverse
  else s ++ ['/']

/-- Embedding of `url.rsplit("/", 1)[-1]`: the text after the last `'/'`,
or the whole string when it has no `'/'`. -/
def lastSlashComponent (s : List Char) : List Char :=
  (s.reverse.takeWhile (fun c => ¬ c = '/')).reverse

/-- Embedding of the `self.common_prefix` computation in `__init__`
(lines 99-101): take `os.path.commonprefix` of the batch, and if it does not
end in `"/"`, cut it back to its last `"/"` (appending one if none). -/
def mkCommonPref (urls : List (List Char)) : List Char :=
  let cp := commonPref urls
  if cp.getLast? = some '/' then cp else upToLastSlash cp

/-- The character substitution of `filename.replace("/", "_")`. -/
def replSlash (c : Char) : Char := if c = '/' then '_' else c

/-- Embedding of `EfficientDownloader._get_filename`: strip the batch's
common prefix (`url[len(self.common_prefix):]`), fall back to the last path
component when the remainder is empty (`or url.rsplit("/", 1)[-1]`), then
replace every `'/'` by `'_'`. -/
def getFilename (commonPrefixArg url : List Char) : List Char :=
  let fname := url.drop commonPrefixArg.length
  let fname := if fname = [] then lastSlashComponent url else fname
  fname.map replSlash

/-! ## Fetch stage (`EfficientDownloader._download_file`, lines 169-193) -/

/-- What one HTTP attempt can yield, as observed by `_download_file`: a
response (with its status code and body bytes, `await response.read()`), or
an exception raised by the request machinery (network error, timeout). -/
inductive AttemptOutcome : Type
  | response (status : Nat) (body : List Nat)
  | raised (err : List Char)
deriving DecidableEq

/-- Result of one `_download_file` call: the items it put on the download
queue, the records it appended to `self.failed_downloads` (as
`(url, error, attempts)`), and how many attempts it executed. -/
structure DownloadOutcome where
  pushed : List (List Char × List Nat)
  failures : List (List Char × List Char × Nat)
  attempts : Nat
deriving DecidableEq

/-- Embedding of the retry loop `while retries < max_retries` of
`_download_file`.  `remaining` is `max_retries - retries`, so the loop guard
fails exactly when `remaining = 0`.  An attempt yielding a response (of any
status: the code never inspects `response.status`) pushes
`(file_name, content)` and breaks; a raised exception increments `retries`,
and when `retries` has reached `max_retries` appends
`(url, error, retries)` to the failure list and falls out of the loop. -/
def runAttempts (oracle : Nat → AttemptOutcome) (fileName url : List Char) :
    Nat → Nat → DownloadOutcome
  | _, 0 => ⟨[], [], 0⟩
  | retries, remaining + 1 =>
    match oracle retries with
    | .response _status body => ⟨[(fileName, body)], [], 1⟩
    | .raised e =>
      if remaining = 0 then ⟨[], [(url, e, retries + 1)], 1⟩
      else
        let rest := runAttempts oracle fileName url (retries + 1) remaining
        ⟨rest.pushed, rest.failures, rest.attempts + 1⟩

/-- `max_retries = 3` in `_download_file`. -/
def maxRetries : Nat := 3

/-- One full `_download_file` call on a url, starting from `retries = 0`. -/
def downloadFile (oracle : Nat → AttemptOutcome) (fileName url : List Char) :
    DownloadOutcome :=
  runAttempts oracle fileName url 0 maxRetries

/-! ## Transform stage (`EfficientDownloader._process_files`, lines 195-215) -/

/-- The mutable state `_process_files` builds up: the statistics counters it
increments, the `self.successful_downloads` ledger, and the files it writes
into the download directory. -/
structure ProcState where
  successfulStat : Nat
  totalDownloadSize : Nat
  totalProcessedSize : Nat
  ledger : List (List Char)
  written : List (List Char × List Nat)
deriving DecidableEq

/-- The state at the start of a run (all counters in `self.stats` start at
zero, the ledger empty, nothing written). -/
def initProcState : ProcState := ⟨0, 0, 0, [], []⟩

/-- Embedding of the `_process_files` drain loop.  The input list holds the
queue items in pop order, the end of the list playing the role of the `None`
sentinel.  `processFunc` embeds `self.process_func`, which may raise
(modelled by `Except`).  The source applies `process_func` with NO
surrounding try/except, so an error propagates out of the loop at once:
the remaining items are never popped and the whole call errors.  On success
the loop writes the file and performs the stats updates and ledger append of
lines 208-214. -/
def processFiles (processFunc : List Nat → Except (List Char) (List Nat)) :
    List (List Char × List Nat) → ProcState → Except (List Char) ProcState
  | [], st => .ok st
  | (fileName, content) :: rest, st =>
    match processFunc content with
    | .error e => .error e
    | .ok processed =>
      processFiles processFunc rest
        { successfulStat := st.successfulStat + 1
          totalDownloadSize := st.totalDownloadSize + content.length
          totalProcessedSize := st.totalProcessedSize + processed.length
          ledger := st.ledger ++ [fileName]
          written := st.written ++ [(fileName, processed)] }

/-! ## Whole-run composition (`EfficientDownloader.download_all`,
lines 126-167): every url is fetched (the gathered `_download_file` tasks),
the download queue is drained into the process queue, and `_process_files`
consumes it to the sentinel. -/

/-- All fetches of a run: each url gets its own attempt oracle; the pushed
items and the appended failure records are accumulated in submission order
(the counts are what the claims speak about, and they are invariant under
the interleaving of the gathered tasks). -/
def fetchAll (oracle : List Char → Nat → AttemptOutcome) (cp : List Char) :
    List (List Char) →
      List (List Char × List Nat) × List (List Char × List Char × Nat)
  | [] => ([], [])
  | u :: us =>
    let r := downloadFile (oracle u) (getFilename cp u) u
    let rest := fetchAll oracle cp us
    (r.pushed ++ rest.1, r.failures ++ rest.2)

/-- Observable outcome of a completed run.  `failedStat` is
`stats["failed_downloads"]`: the code increments it exactly where it appends
to `self.failed_downloads` (lines 187-190), so it equals the length of the
failure list; `succeededStat` is `stats["successful_downloads"]`,
incremented once per item consumed by `_process_files`. -/
structure RunResult where
  pushedCount : Nat
  succeededStat : Nat
  failedStat : Nat
  failures : List (List Char × List Char × Nat)
  ledger : List (List Char)
deriving DecidableEq

/-- A run of `download_all`: fetch every url, then drain every pushed item
through `_process_files`.  The run completes (`Except.ok`) unless the
transform raises, in which case the exception surfaces out of
`process_future.result()` and aborts the run. -/
def runPipeline (urls : List (List Char))
    (oracle : List Char → Nat → AttemptOutcome)
    (processFunc : List Nat → Except (List Char) (List Nat)) :
    Except (List Char) RunResult :=
  let fetched := fetchAll oracle (mkCommonPref urls) urls
  match processFiles processFunc fetched.1 initProcState with
  | .error e => .error e
  | .ok st =>
    .ok { pushedCount := fetched.1.length
          succeededStat := st.successfulStat
          failedStat := fetched.2.length
          failures := fetched.2
          ledger := st.ledger }

/-! ## RateLimiter (`RateLimiter.wait`, lines 54-69) -/

/-- The duration `time.sleep` is asked for inside `wait`: with the entry
reading `t1` of `time.time()` and the stored `last_request_time`, the code
sleeps `1/rate - (t1 - last)` when `t1 - last < 1/rate` and does not sleep
otherwise. -/
def sleepAmount (rate lastRequestTime t1 : ℚ) : ℚ :=
  if t1 - lastRequestTime < 1 / rate then 1 / rate - (t1 - lastRequestTime)
  else 0

/-- The grant stamp one `wait` call writes into `last_request_time`: the
second `time.time()` reading, taken after the optional sleep.  The clock
model says this reading is the entry reading plus the slept duration plus a
nonnegative drift `d` (time only moves forward, and `time.sleep(x)` blocks
for at least `x`). -/
def waitStamp (rate lastRequestTime t1 d : ℚ) : ℚ :=
  t1 + sleepAmount rate lastRequestTime t1 + d

/-- The sequence of grant stamps produced by a series of `wait` calls.
`self.lock` serializes the calls, so the run is a fold: each call sees the
stamp its predecessor stored.  Each element of `calls` carries the entry
clock reading `t1` of that call and its drift `d`. -/
def grantTimes (rate : ℚ) : ℚ → List (ℚ × ℚ) → List ℚ
  | _, [] => []
  | lastRequestTime, c :: cs =>
    let s := waitStamp rate lastRequestTime c.1 c.2
    s :: grantTimes rate s cs

/-! ## Locking of the statistics updates (lines 189-190 and 208-214)

Both update sites are written `with threading.Lock():` — each execution
constructs a BRAND-NEW lock object, acquires it, and releases it.  Mutual
exclusion only relates two critical sections that acquire the SAME lock, so
the lock assignment below gives every update its own lock id (`freshLocks`),
which is what the source does.  An update is a non-atomic
read-modify-write (`self.stats[k] += 1`); the interleaving semantics makes
that explicit. -/

/-- One atomic machine action of a counter update: thread `t` reads the
shared counter into its register, or writes back its register plus one. -/
inductive StatAction : Type
  | read (t : Nat)
  | write (t : Nat)
deriving DecidableEq

/-- Shared counter plus the per-thread registers holding read values. -/
structure StatsCell where
  counter : Nat
  reg : Nat → Nat

/-- Effect of one action. -/
def statStep (st : StatsCell) : StatAction → StatsCell
  | .read t => { st with reg := fun u => if u = t then st.counter else st.reg u }
  | .write t => { st with counter := st.reg t + 1 }

/-- Execute a schedule (an interleaving of the threads' actions). -/
def runSchedule (sched : List StatAction) (st : StatsCell) : StatsCell :=
  sched.foldl statStep st

/-- Position of an action in a schedule (length when absent). -/
def actIdx (sched : List StatAction) (a : StatAction) : Nat :=
  (sched.findIdx? (fun b => b == a)).getD sched.length

/-- The critical sections of threads `t1` and `t2` (each spanning its read
to its write) do not overlap in the schedule. -/
def disjointSections (sched : List StatAction) (t1 t2 : Nat) : Bool :=
  decide (actIdx sched (.write t1) < actIdx sched (.read t2)) ||
  decide (actIdx sched (.write t2) < actIdx sched (.read t1))

/-- A schedule respects a lock assignment when any two threads holding the
SAME lock have disjoint critical sections.  Threads holding different locks
are left unconstrained: that is all a lock can enforce. -/
def respectsLockDiscipline (lockOf : Nat → Nat) (threads : List Nat)
    (sched : List StatAction) : Bool :=
  threads.all (fun t1 => threads.all (fun t2 =>
    t1 == t2 || lockOf t1 != lockOf t2 || disjointSections sched t1 t2))

/-- The source's lock assignment: `with threading.Lock():` constructs a new
lock per update, so no two updates ever share one — every thread gets a
distinct lock id. -/
def freshLocks : Nat → Nat := fun t => t

/-- The interleaving in which both threads read the counter before either
writes: the classic lost-update schedule. -/
def lostUpdateSchedule : List StatAction :=
  [.read 0, .read 1, .write 0, .write 1]

/-! ## The hand-off queues (`download_all`, lines 126-157)

`download_all` constructs `download_queue = asyncio.Queue()` and
`process_queue = queue.Queue()`, both with the default `maxsize` of 0.
`asyncio.Queue.put` suspends the caller exactly while `full()` holds, and
`full()` is `0 < maxsize and maxsize <= qsize()`. -/

/-- A queue with the `asyncio.Queue` capacity discipline. -/
structure AQueue (α : Type) where
  maxsize : Nat
  items : List α
deriving DecidableEq

/-- Embedding of `asyncio.Queue.full`: false whenever `maxsize` is 0. -/
def AQueue.full {α : Type} (q : AQueue α) : Bool :=
  0 < q.maxsize && q.maxsize ≤ q.items.length

/-- Embedding of `put`: `none` models the producer suspending on a full
queue; otherwise the item is appended. -/
def AQueue.put {α : Type} (q : AQueue α) (x : α) : Option (AQueue α) :=
  if q.full then none else some ⟨q.maxsize, q.items ++ [x]⟩

/-- The download queue exactly as `download_all` creates it:
`asyncio.Queue()` with no argument, hence `maxsize = 0`, initially empty. -/
def emptyDownloadQueue (α : Type) : AQueue α := ⟨0, []⟩

/-- Push a list of items one by one; `none` as soon as any push suspends. -/
def putMany {α : Type} : List α → AQueue α → Option (AQueue α)
  | [], q => some q
  | x :: xs, q =>
    match q.put x with
    | none => none
    | some q' => putMany xs q'

/-! ## Construction (`EfficientDownloader.__init__`, lines 75-124) -/

/-- The url-dependent fields the constructor stores. -/
structure DownloaderState where
  urls : List (List Char)
  commonPrefixVal : List Char
  totalFiles : Nat
deriving DecidableEq

/-- Embedding of `__init__` restricted to its url-dependent behaviour.  The
constructor body performs NO validation of `urls` and contains no raise that
depends on it: `os.path.commonprefix` of an empty list is `""`, the
`endswith`/`rsplit` adjustment and `len(urls)` are total, and the remaining
statements (header default, stats dict, mkdir, logger, RateLimiter) do not
inspect `urls`.  The `Except` codomain records where a configuration error
would have to surface; the body reaches `.ok` on every input. -/
def initDownloader (urls : List (List Char)) :
    Except (List Char) DownloaderState :=
  .ok { urls := urls
        commonPrefixVal := mkCommonPref urls
        totalFiles := urls.length }

/-! ## Archiver (`EfficientDownloader.create_archive`, lines 239-246) -/

/-- Index of the last occurrence of a character, if any. -/
def rfindIdx (c : Char) (s : List Char) : Option Nat :=
  match s.reverse.findIdx? (fun a => a == c) with
  | some j => some (s.length - 1 - j)
  | none => none

/-- The `pathlib` stem rule used by `with_suffix`: the name loses its text
from the last `'.'` on, provided that dot is neither the first nor the last
character of the name. -/
def pathStem (name : List Char) : List Char :=
  match rfindIdx '.' name with
  | some i => if 0 < i ∧ i + 1 < name.length then name.take i else name
  | none => name

/-- Embedding of `Path(p).with_suffix(".tar.gz")`: replace the last suffix
of the final path component by `".tar.gz"`. -/
def withSuffixTarGz (p : List Char) : List Char :=
  let nm := lastSlashComponent p
  let dirPart := p.take (p.length - nm.length)
  dirPart ++ pathStem nm ++ (".tar.gz".toList)

/-- `(self.download_dir / self.archive_prefix).with_suffix(".tar.gz")`. -/
def archivePathOf (downloadDir archivePref : List Char) : List Char :=
  withSuffixTarGz (downloadDir ++ '/' :: archivePref)

/-- What `create_archive` leaves behind: the archive file it created, the
member names inside it, and the loose files it unlinked. -/
structure ArchiveResult where
  archivePath : List Char
  members : List (List Char)
  removedLoose : List (List Char)
deriving DecidableEq

/-- Embedding of `create_archive`.  `tarfile.open(archive_file, "w:gz")`
creates the archive file unconditionally — write mode creates/truncates even
when the member loop body never runs; each iteration adds one ledger file
under its base name (`arcname=file_path.name`) and unlinks the loose copy.
There is no emptiness guard (contrast `log_failures`, which returns early on
an empty failure list). -/
def createArchive (downloadDir archivePref : List Char)
    (successfulDownloads : List (List Char)) : ArchiveResult :=
  { archivePath := archivePathOf downloadDir archivePref
    members := successfulDownloads.map lastSlashComponent
    removedLoose := successfulDownloads }

/-! ## Concrete instances used by counterexamples and witnesses -/

/-- A url of the shape the SEC index batches use. -/
def urlA : List Char := "http://a/b/c".toList

/-- A second, distinct url whose derived filename collides with `urlA`. -/
def urlB : List Char := "http://a/b_c".toList

/-- A `process_func` that raises on every payload. -/
def boomTransform : List Nat → Except (List Char) (List Nat) :=
  fun _ => .error ['b']

/-! # Theorems -/

/-! ## Counting helpers -/

/-- Each pass through the retry loop with at least one iteration left ends
with exactly one of: one item pushed, or one failure record appended. -/
theorem runAttempts_counts (oracle : Nat → AttemptOutcome) (f u : List Char) :
    ∀ rem retries, (runAttempts oracle f u retries (rem + 1)).pushed.length
      + (runAttempts oracle f u retries (rem + 1)).failures.length = 1 := by
  intro rem
  induction rem with
  | zero =>
    intro retries
    simp only [runAttempts]
    cases oracle retries <;> simp
  | succ k ih =>
    intro retries
    simp only [runAttempts]
    cases oracle retries with
    | response st body => simp
    | raised e =>
      simp only [Nat.succ_ne_zero, if_false]
      exact ih (retries + 1)

/-- One `_download_file` call pushes exactly one item or appends exactly
one failure record, never both, never neither. -/
theorem downloadFile_counts (oracle : Nat → AttemptOutcome) (f u : List Char) :
    (downloadFile oracle f u).pushed.length
      + (downloadFile oracle f u).failures.length = 1 :=
  runAttempts_counts oracle f u 2 0

/-- Over a whole batch, pushed items plus failure records equal the number
of urls. -/
theorem fetchAll_counts (oracle : List Char → Nat → AttemptOutcome)
    (cp : List Char) :
    ∀ urls : List (List Char),
      (fetchAll oracle cp urls).1.length + (fetchAll oracle cp urls).2.length
        = urls.length := by
  intro urls
  induction urls with
  | nil => simp [fetchAll]
  | cons u us ih =>
    simp only [fetchAll, List.length_append, List.length_cons]
    have h := downloadFile_counts (oracle u) (getFilename cp u) u
    omega

/-- A completing `_process_files` drain increments
`stats["successful_downloads"]` once per consumed item. -/
theorem processFiles_ok_counts
    (processFunc : List Nat → Except (List Char) (List Nat)) :
    ∀ (items : List (List Char × List Nat)) (st st' : ProcState),
      processFiles processFunc items st = .ok st' →
      st'.successfulStat = st.successfulStat + items.length := by
  intro items
  induction items with
  | nil =>
    intro st st' h
    simp only [processFiles] at h
    cases h
    simp
  | cons a rest ih =>
    intro st st' h
    obtain ⟨n, c⟩ := a
    simp only [processFiles] at h
    cases hc : processFunc c with
    | error e => rw [hc] at h; cases h
    | ok processed =>
      rw [hc] at h
      have := ih _ _ h
      simp only [this]
      simp [List.length_cons]
      omega

/-! ## C1 -/

/-- C1: for every run over N submitted urls, the number of items ever
pushed onto the hand-off queue plus the number of failure records ever
appended equals N, and for every run that completes the final statistics
satisfy `successful_downloads + failed_downloads = N` — every url is
counted in exactly one of the two buckets. -/
theorem every_url_counted_once (urls : List (List Char))
    (oracle : List Char → Nat → AttemptOutcome)
    (processFunc : List Nat → Except (List Char) (List Nat)) :
    (fetchAll oracle (mkCommonPref urls) urls).1.length
      + (fetchAll oracle (mkCommonPref urls) urls).2.length = urls.length ∧
    (∀ res : RunResult, runPipeline urls oracle processFunc = .ok res →
      res.succeededStat + res.failedStat = urls.length) := by
  refine ⟨fetchAll_counts oracle (mkCommonPref urls) urls, ?_⟩
  intro res h
  simp only [runPipeline] at h
  cases heq : processFiles processFunc
      (fetchAll oracle (mkCommonPref urls) urls).1 initProcState with
  | error e => rw [heq] at h; cases h
  | ok st =>
    rw [heq] at h
    cases h
    have hsucc := processFiles_ok_counts processFunc _ _ _ heq
    simp only [hsucc, initProcState]
    have := fetchAll_counts oracle (mkCommonPref urls) urls
    omega

/-- Witness for C1: a completed two-url run with both fetches succeeding
has `succeeded + failed = 2`. -/
theorem every_url_counted_once_witness :
    (⟨2, 2, 0, [], [['a'], ['b']]⟩ : RunResult).succeededStat
      + (⟨2, 2, 0, [], [['a'], ['b']]⟩ : RunResult).failedStat
      = ([['a'], ['b']] : List (List Char)).length :=
  (every_url_counted_once [['a'], ['b']] (fun _ _ => .response 200 [1])
      (fun b => .ok b)).2 _ rfl

/-! ## C2 -/

/-- Helper for C2: one `wait` call stamps a grant time at least `1/rate`
after the previously stored grant time, in the clock model where the
post-sleep reading is the entry reading plus the slept duration plus a
nonnegative drift. -/
theorem waitStamp_ge (rate lastRequestTime t1 d : ℚ) (_hrate : 0 < rate)
    (hd : 0 ≤ d) :
    lastRequestTime + 1 / rate ≤ waitStamp rate lastRequestTime t1 d := by
  unfold waitStamp sleepAmount
  split_ifs with h
  · linarith
  · push_neg at h
    linarith

/-- C2: for every pair of consecutive granted acquisitions of the shared
`RateLimiter` — the calls being serialized by its single lock, each call
reading the clock, sleeping the remaining delta when less than `1/rate` has
elapsed since the last grant, and stamping its own grant time — the gap
between consecutive grant stamps is never less than `1/rate` seconds. -/
theorem consecutive_grants_spaced (rate lastRequestTime : ℚ)
    (calls : List (ℚ × ℚ)) (hrate : 0 < rate)
    (hd : ∀ c ∈ calls, 0 ≤ c.2) :
    List.Chain' (fun a b => a + 1 / rate ≤ b)
      (grantTimes rate lastRequestTime calls) := by
  induction calls generalizing lastRequestTime with
  | nil => exact List.chain'_nil
  | cons c cs ih =>
    simp only [grantTimes]
    apply List.chain'_cons'.mpr
    refine ⟨?_, ih _ (fun x hx => hd x (List.mem_cons_of_mem _ hx))⟩
    intro y hy
    cases cs with
    | nil => simp [grantTimes] at hy
    | cons c' cs' =>
      simp only [grantTimes, List.head?_cons, Option.mem_def,
        Option.some.injEq] at hy
      subst hy
      exact waitStamp_ge rate _ c'.1 c'.2 hrate (hd c' (by simp))

/-- Witness for C2: three serialized acquisitions at rate 2 yield grant
stamps spaced at least half a second apart. -/
theorem consecutive_grants_spaced_witness :
    List.Chain' (fun a b => a + 1 / (2 : ℚ) ≤ b)
      (grantTimes 2 0 [(0, 0), (1, 0), (1, 0)]) :=
  consecutive_grants_spaced 2 0 [(0, 0), (1, 0), (1, 0)] (by norm_num)
    (by intro c hc; fin_cases hc <;> norm_num)

/-! ## C3 -/

/-- C3: the claim that every statistics update happens inside one SHARED
mutual-exclusion scope fails on the code: both update sites execute
`with threading.Lock():`, constructing a fresh lock per update
(`freshLocks`), so a schedule in which two updates fully interleave and
lose an increment respects the code's locking discipline — two increments
of a counter starting at 0 can leave it at 1.  The schedule below performs
each thread's read before its write, once each, as the non-atomic
`self.stats[k] += 1` does. -/
theorem fresh_locks_lose_an_increment :
    respectsLockDiscipline freshLocks [0, 1] lostUpdateSchedule = true ∧
    lostUpdateSchedule.count (.read 0) = 1 ∧
    lostUpdateSchedule.count (.write 0) = 1 ∧
    lostUpdateSchedule.count (.read 1) = 1 ∧
    lostUpdateSchedule.count (.write 1) = 1 ∧
    actIdx lostUpdateSchedule (.read 0) < actIdx lostUpdateSchedule (.write 0) ∧
    actIdx lostUpdateSchedule (.read 1) < actIdx lostUpdateSchedule (.write 1) ∧
    (runSchedule lostUpdateSchedule ⟨0, fun _ => 0⟩).counter = 1 := by
  refine ⟨by decide, by decide, by decide, by decide, by decide, by decide,
    by decide, rfl⟩

/-! ## C4 -/

set_option maxRecDepth 10000 in
/-- Counterexample to C4: the hand-off queue `download_all` creates has
`maxsize = 0`; pushing one hundred items onto it suspends at no point and
leaves one hundred unconsumed items in a queue that still reports not-full,
so no finite capacity K bounds the unconsumed items at K plus the in-flight
count (the batch size is 10). -/
theorem put_never_suspends_at_hundred_items :
    putMany (List.replicate 100 ((['x'], [0]) : List Char × List Nat))
        (emptyDownloadQueue _) =
      some ⟨0, List.replicate 100 (['x'], [0])⟩ ∧
    (AQueue.full (⟨0, List.replicate 100 (['x'], [0])⟩
        : AQueue (List Char × List Nat))) = false := by
  exact ⟨by decide, rfl⟩

/-- Helper for C4: on a `maxsize = 0` queue every push succeeds. -/
theorem putMany_maxsize_zero {α : Type} :
    ∀ (xs : List α) (acc : List α),
      putMany xs (⟨0, acc⟩ : AQueue α) = some ⟨0, acc ++ xs⟩ := by
  intro xs
  induction xs with
  | nil => intro acc; simp [putMany]
  | cons x xs ih =>
    intro acc
    simp only [putMany, AQueue.put, AQueue.full]
    simp [ih (acc ++ [x])]

/-- C4 amended: the hand-off queue is created unbounded (`asyncio.Queue()`
with default `maxsize = 0`), so push never suspends — any list of items goes
in whole — and the only bound on unconsumed fetch results is the number of
submitted urls. -/
theorem handoff_queues_unbounded (α : Type) (xs : List α)
    (oracle : List Char → Nat → AttemptOutcome) (cp : List Char)
    (urls : List (List Char)) :
    putMany xs (emptyDownloadQueue α) = some ⟨0, xs⟩ ∧
    (fetchAll oracle cp urls).1.length ≤ urls.length := by
  constructor
  · have h := putMany_maxsize_zero xs []
    simpa [emptyDownloadQueue] using h
  · have h := fetchAll_counts oracle cp urls
    omega

/-! ## C5 -/

/-- Counterexample to C5: a fetch whose response always carries the
non-success status 404 is pushed onto the hand-off queue as a success on
the first attempt, with no retry and no failure record — the code never
inspects `response.status`. -/
theorem non_success_status_pushed_as_success :
    downloadFile (fun _ => .response 404 [72, 105]) ['f'] ['u'] =
      ⟨[(['f'], [72, 105])], [], 1⟩ ∧
    (downloadFile (fun _ => .response 404 [72, 105]) ['f'] ['u']).failures
      = [] := by
  exact ⟨rfl, rfl⟩

/-- C5 amended: only raised exceptions (network errors, timeouts) count as
failed attempts; any HTTP response, whatever its status code, is pushed as
a success on the attempt that received it, with no retry and no failure
record. -/
theorem response_of_any_status_is_pushed (oracle : Nat → AttemptOutcome)
    (f u : List Char) (status : Nat) (body : List Nat)
    (h : oracle 0 = .response status body) :
    downloadFile oracle f u = ⟨[(f, body)], [], 1⟩ := by
  simp [downloadFile, maxRetries, runAttempts, h]

/-- Witness for the amended C5 at status 500. -/
theorem response_of_any_status_is_pushed_witness :
    downloadFile (fun _ => .response 500 [9]) ['f'] ['u'] =
      ⟨[(['f'], [9])], [], 1⟩ :=
  response_of_any_status_is_pushed (fun _ => .response 500 [9]) ['f'] ['u']
    500 [9] rfl

/-! ## C6 -/

/-- Counterexample to C6: the distinct urls `http://a/b/c` and
`http://a/b_c` in one batch both derive the destination name `b_c` —
substituting `'_'` for `'/'` merges suffixes that differ only in those two
characters. -/
theorem filename_collision_in_batch :
    urlA ≠ urlB ∧
    getFilename (mkCommonPref [urlA, urlB]) urlA
      = getFilename (mkCommonPref [urlA, urlB]) urlB := by
  exact ⟨by decide, by decide⟩

/-- Helper for C6: the slash substitution is injective on characters other
than the filler `'_'`. -/
theorem replSlash_inj {a b : Char} (ha : a ≠ '_') (hb : b ≠ '_')
    (h : replSlash a = replSlash b) : a = b := by
  unfold replSlash at h
  split_ifs at h with h1 h2 h2
  · rw [h1, h2]
  · exact absurd h.symm hb
  · exact absurd h ha
  · exact h

/-- Helper for C6: the slash substitution is injective on strings free of
the filler character. -/
theorem map_replSlash_inj :
    ∀ {s t : List Char}, '_' ∉ s → '_' ∉ t →
      s.map replSlash = t.map replSlash → s = t := by
  intro s
  induction s with
  | nil =>
    intro t _ _ h
    cases t with
    | nil => rfl
    | cons b bs => simp at h
  | cons a as ih =>
    intro t hs ht h
    cases t with
    | nil => simp at h
    | cons b bs =>
      simp only [List.map_cons, List.cons.injEq] at h
      have ha : a ≠ '_' := fun hc => hs (hc ▸ List.mem_cons_self a as)
      have hb : b ≠ '_' := fun hc => ht (hc ▸ List.mem_cons_self b bs)
      have h1 := replSlash_inj ha hb h.1
      have h2 := ih (fun hc => hs (List.mem_cons_of_mem _ hc))
        (fun hc => ht (List.mem_cons_of_mem _ hc)) h.2
      rw [h1, h2]

/-- C6 amended: destination-name derivation is injective on any two
distinct urls of the batch of which the computed common prefix is a genuine
prefix, whose remaining suffixes are nonempty and do not contain the filler
character `'_'`. -/
theorem getFilename_injective_on_underscore_free (p s1 s2 : List Char)
    (h1 : '_' ∉ s1) (h2 : '_' ∉ s2) (hs1 : s1 ≠ []) (hs2 : s2 ≠ [])
    (hne : p ++ s1 ≠ p ++ s2) :
    getFilename p (p ++ s1) ≠ getFilename p (p ++ s2) := by
  intro h
  apply hne
  unfold getFilename at h
  rw [List.drop_left p s1, List.drop_left p s2] at h
  simp only [if_neg hs1, if_neg hs2] at h
  rw [map_replSlash_inj h1 h2 h]

/-- Witness for the amended C6 on two underscore-free suffixes. -/
theorem getFilename_injective_witness :
    getFilename ("http://a/".toList) ("http://a/".toList ++ ['b'])
      ≠ getFilename ("http://a/".toList) ("http://a/".toList ++ ['c']) :=
  getFilename_injective_on_underscore_free ("http://a/".toList) ['b'] ['c']
    (by decide) (by decide) (by decide) (by decide) (by decide)

/-! ## C7 -/

/-- C7: a url whose fetch raises on every attempt is attempted exactly
three times (`max_retries`), pushes nothing, and appends exactly one
failure record carrying `attempts = 3`; the bare `except Exception`
swallows every attempt error, so the per-url routine returns normally —
the embedding is a total function. -/
theorem always_failing_url_attempted_exactly_three_times
    (oracle : Nat → AttemptOutcome) (e : Nat → List Char) (f u : List Char)
    (h : ∀ n, oracle n = .raised (e n)) :
    downloadFile oracle f u = ⟨[], [(u, e 2, 3)], 3⟩ := by
  simp [downloadFile, maxRetries, runAttempts, h]

/-- Witness for C7 with a constant error. -/
theorem always_failing_url_witness :
    downloadFile (fun _ => .raised ['e']) ['f'] ['u'] =
      ⟨[], [(['u'], ['e'], 3)], 3⟩ :=
  always_failing_url_attempted_exactly_three_times (fun _ => .raised ['e'])
    (fun _ => ['e']) ['f'] ['u'] (fun _ => rfl)

/-! ## C8 -/

/-- Counterexample to C8: with a transform that raises, `_process_files`
errors out at the first item — the second item is never processed — and the
whole run fails to complete (so no archive, failure log, or summary is
produced), because `process_func` is applied with no surrounding
try/except. -/
theorem transform_error_halts_stage_and_run :
    processFiles boomTransform [(['a'], [1]), (['c'], [2])] initProcState
      = .error ['b'] ∧
    (runPipeline [['u']] (fun _ _ => .response 200 [1]) boomTransform).isOk
      = false := by
  exact ⟨rfl, rfl⟩

/-- C8 amended: if the transform raises on the payload of one item, the
transform stage terminates at that item with the exception — no subsequent
item is popped or processed, and the error propagates out of the drain
loop, aborting the run before archive, failure log, and summary. -/
theorem transform_error_propagates
    (processFunc : List Nat → Except (List Char) (List Nat))
    (a : List Char × List Nat) (rest : List (List Char × List Nat))
    (st : ProcState) (e : List Char) (h : processFunc a.2 = .error e) :
    processFiles processFunc (a :: rest) st = .error e := by
  obtain ⟨n, c⟩ := a
  simp only [processFiles]
  rw [h]

/-- Witness for the amended C8. -/
theorem transform_error_propagates_witness :
    processFiles boomTransform [(['a'], [1])] initProcState = .error ['b'] :=
  transform_error_propagates boomTransform (['a'], [1]) [] initProcState
    ['b'] rfl

/-! ## C9 -/

/-- Counterexample to C9: constructing the downloader with an empty url list
succeeds — no error is surfaced; the constructor stores common prefix
`"/"` (the `rsplit` adjustment applied to the empty common prefix) and
`total_files = 0`. -/
theorem empty_url_list_constructs_ok :
    initDownloader [] = .ok ⟨[], ['/'], 0⟩ := rfl

/-- C9 amended: construction performs no validation of the url list at all
— it succeeds on every input, the empty list included, before any network
activity. -/
theorem initDownloader_never_fails (urls : List (List Char)) :
    (initDownloader urls).isOk = true := rfl

/-! ## C10 -/

/-- C10: with an empty successful-downloads ledger, `create_archive` still
creates the archive file at `(download_dir / archive_prefix)` with suffix
`".tar.gz"`, containing zero members and unlinking nothing — archive
creation is not skipped, since `tarfile.open(..., "w:gz")` runs before the
member loop. -/
theorem createArchive_empty_ledger (downloadDir archivePref : List Char) :
    createArchive downloadDir archivePref [] =
      ⟨archivePathOf downloadDir archivePref, [], []⟩ ∧
    (createArchive downloadDir archivePref []).members.length = 0 :=
  ⟨rfl, rfl⟩

end UtilsInternet
